import Mathlib

/-!
Shallow embedding of the cloudbus-segment asynchronous service runtime:
the async context (`signal`, signal mask, interrupt cell), the worker
thread (`async_service::start`, `stop`, `isr`) and the TCP scaffold
(`async_tcp_service`).  Machine integers are modelled as `Nat` (the
signal mask is a 64-bit word; the OR of values below `2^64` stays below
`2^64`, so no wrap occurs on the paths modelled here).  Side effects
(invoking callables, spawning senders, locking the external mutex) are
modelled as explicit event traces.
-/

namespace Cloudbus

/-- Signal enumeration from `async_service.hpp`:
`enum signals : uint8_t { terminate = 0, user1, END }`. -/
def terminate : Nat := 0

/-- `user1 = 1` in `enum signals`. -/
def user1 : Nat := 1

/-- The sentinel `END = 2` of `enum signals`. -/
def END : Nat := 2

/-! ## Interrupt cell (`async_context::interrupt_type`) -/

/-- The interrupt cell: an optional callable guarded by a mutex
(`std::function<void()> fn_` plus `std::mutex mtx_`).  The mutex only
serialises access; the data content is the optional callable.  The
callable is modelled abstractly as a value of type `F`. -/
structure interrupt_type (F : Type) where
  fn_ : Option F
deriving DecidableEq

/-- Result of invoking a `std::function`: either the callable ran and
produced `E`, or the function was empty and `std::bad_function_call`
was raised. -/
inductive invoke_result (E : Type) where
  | ok (e : E)
  | bad_function_call
deriving DecidableEq

/-- `async_context::interrupt_type::operator()` from `async_service.cpp`:
snapshots `fn_` under the lock and then invokes the snapshot,
unconditionally.  Invoking the snapshot when it is empty is exactly
`std::function`'s empty call, which raises `bad_function_call`. -/
def interrupt_invoke {E : Type} (cell : interrupt_type (Unit → E)) :
    invoke_result E :=
  match cell.fn_ with
  | none => .bad_function_call
  | some f => .ok (f ())

/-- `async_context::interrupt_type::operator bool` from
`async_service.cpp`: reports, under the lock, whether a callable is
stored (`static_cast<bool>(fn_)`). -/
def interrupt_bool {F : Type} (cell : interrupt_type F) : Bool :=
  cell.fn_.isSome

/-- `async_context::interrupt_type::operator=` from `async_service.cpp`:
replaces the stored callable under the lock. -/
def interrupt_assign {F : Type} (cell : interrupt_type F) (f : Option F) :
    interrupt_type F :=
  { cell with fn_ := f }

/-! ## `async_context::signal` -/

/-- Observable effects of one `async_context::signal` call. -/
inductive signal_event where
  | or_bit (signum : Nat)
  | invoke_interrupt
deriving DecidableEq

/-- `async_context::signal(int signum)` from `async_service.cpp`:

```
assert(signum >= 0 && signum < END);
if (interrupt) { sigmask.fetch_or(1 << signum); interrupt(); }
```

Takes the current `sigmask` word and whether `interrupt` tests true,
returns the new `sigmask` and the emitted effects in program order. -/
def signal (sigmask : Nat) (interrupt_present : Bool) (signum : Nat) :
    Nat × List signal_event :=
  if interrupt_present then
    (sigmask ||| (1 <<< signum), [.or_bit signum, .invoke_interrupt])
  else
    (sigmask, [])

/-! ## The ISR dispatch loop (`async_service::start`, handle lambda) -/

/-- The dispatch loop of the ISR's handle lambda in
`async_service_impl.hpp`:

```
for (int signum = 0; auto mask = (sigmask_ >> signum); ++signum)
  if (mask & (1 << 0))
    service.signal_handler(signum);
```

`dispatchFrom S signum` is the list of signal numbers passed to
`service.signal_handler`, in call order, starting from loop counter
`signum` over snapshot `S`. -/
def dispatchFrom (S : Nat) (signum : Nat) : List Nat :=
  if h : S >>> signum = 0 then []
  else
    (if (S >>> signum) &&& 1 ≠ 0 then [signum] else []) ++
      dispatchFrom S (signum + 1)
termination_by S >>> signum
decreasing_by
  have h2 : S >>> (signum + 1) = S >>> signum / 2 := Nat.shiftRight_succ S signum
  have hpos : 0 < S >>> signum := Nat.pos_of_ne_zero h
  omega

/-- `isr`'s handle lambda (`async_service_impl.hpp`): atomically
exchanges `sigmask` with zero, runs the dispatch loop on the snapshot,
and returns `!(sigmask_ & (1 << terminate))`. -/
structure handle_result where
  new_sigmask : Nat
  dispatched : List Nat
  contin : Bool
deriving DecidableEq

/-- The handle lambda passed to `isr` in `async_service::start`. -/
def isr_handle (sigmask : Nat) : handle_result :=
  { new_sigmask := 0
    dispatched := dispatchFrom sigmask 0
    contin := sigmask &&& (1 <<< terminate) == 0 }

/-- Observable events of the ISR continuation chain. -/
inductive isr_event where
  | drain (S : Nat)
  | dispatch (signum : Nat)
  | request_stop
  | arm_recv
deriving DecidableEq

/-- `async_service::isr` (`async_service_impl.hpp`): on entry call
`handle()` (drain + dispatch); if it returned false, `request_stop` and
return without spawning; otherwise spawn a `recvmsg` sender whose
`then`-continuation re-invokes `isr`.  `snapshots` lists the value of
`sigmask` at each successive ISR entry (the wake tokens' payloads are
discarded); when the list is exhausted the armed `recvmsg` is still
pending. -/
def isr_run : List Nat → List isr_event
  | [] => []
  | S :: rest =>
    .drain S :: (isr_handle S).dispatched.map .dispatch ++
      (if (isr_handle S).contin then .arm_recv :: isr_run rest
       else [.request_stop])

/-- Recognizer for `drain` events (one per ISR entry, i.e. one
`handle()` call). -/
def isr_is_drain : isr_event → Bool
  | .drain _ => true
  | _ => false

/-! ## TCP scaffold (`async_tcp_service_impl.hpp`) -/

/-- Observable events of the TCP scaffold's continuations.  `spawn_*`
events are senders spawned on `ctx.scope`; `call_*` events are direct
(synchronous) invocations of the scaffold's own member functions;
`invoke_handler` carries the bytes handed to the user stream handler;
`invoke_stop` is `signal_handler` calling the installed `stop_`. -/
inductive tcp_event where
  | request_stop
  | install_stop
  | register_socket
  | spawn_connect
  | invoke_stop
  | call_acceptor
  | spawn_accept
  | call_reader (fresh : Bool)
  | spawn_recv
  | invoke_handler (bytes : List Nat)
deriving DecidableEq

/-- `BUFSIZE`-equivalent: `read_context` holds a 1024-byte buffer. -/
def READ_BUFSIZE : Nat := 1024

/-- `read_context`: per-connection fixed buffer plus a message
descriptor pointing at it (the descriptor is determined by the buffer,
so only the buffer is modelled; bytes are `Nat` values below 256). -/
structure read_context where
  buffer : List Nat
deriving DecidableEq

/-- The `stop_` closure installed by `async_tcp_service::start`:

```
stop_ = [&] {
  ctx.scope.request_stop();
  sender auto connect = io::connect(ctx.poller.emplace(...), address_)
                        | then(noop) | upon_error(noop);
  ctx.scope.spawn(std::move(connect));
};
```
-/
def stop_closure : List tcp_event :=
  [.request_stop, .register_socket, .spawn_connect]

/-- The `then`-continuation of the stop closure's `connect` sender:
`then([](auto status) {})`. -/
def connect_then (status : Int) : List tcp_event := []

/-- The error continuation of the stop closure's `connect` sender:
`upon_error([](auto &&error) {})`. -/
def connect_on_error (error : Int) : List tcp_event := []

/-- `async_tcp_service::signal_handler(int signum)`:

```
if (signum == terminate && stop_)
  stop_();
```

The method is `const noexcept`: it mutates nothing; its only possible
effect is invoking `stop_`. -/
def signal_handler (signum : Int) (stop_installed : Bool) :
    List tcp_event :=
  if signum = (terminate : Nat) ∧ stop_installed then [.invoke_stop]
  else []

/-- `async_tcp_service::acceptor`: if the scope's stop token is
requested, return without spawning; otherwise spawn exactly one
`accept` sender. -/
def acceptor (stop_requested : Bool) : List tcp_event :=
  if stop_requested then [] else [.spawn_accept]

/-- `async_tcp_service::reader`: if the scope's stop token is
requested, return; otherwise spawn one `recvmsg` sender. -/
def reader (stop_requested : Bool) : List tcp_event :=
  if stop_requested then [] else [.spawn_recv]

/-- The `then`-continuation of the acceptor's `accept` sender:
`reader(ctx, dialog, std::make_shared<read_context>()); acceptor(ctx,
socket);` — one reader call on a freshly constructed `read_context`,
then one acceptor re-invocation.  `stop_requested` is the stop token
state at the time the continuation runs. -/
def accept_then (stop_requested : Bool) : List tcp_event :=
  .call_reader true :: reader stop_requested ++
    .call_acceptor :: acceptor stop_requested

/-- The error continuation of the acceptor's `accept` sender:
`upon_error([](auto &&error) {})`. -/
def accept_on_error (error : Int) : List tcp_event := []

/-- `async_tcp_service::emit`: trampoline that invokes the user stream
handler (`static_cast<TCPStreamHandler &>(*this)(ctx, socket,
std::move(rmsg), buf)`) exactly once with the byte view `buf`. -/
def emit (rctx : read_context) (len : Nat) : List tcp_event :=
  [.invoke_handler (rctx.buffer.take len)]

/-- The `then`-continuation of the reader's `recvmsg` sender:

```
if (!len) return;
auto buf = std::span{rmsg->buffer.data(), len};
emit(ctx, socket, std::move(rmsg), buf);
```
-/
def recv_then (rctx : read_context) (len : Nat) : List tcp_event :=
  if len = 0 then [] else emit rctx len

/-- The error continuation of the reader's `recvmsg` sender:
`upon_error([](auto &&error) {})`. -/
def recv_on_error (error : Int) : List tcp_event := []

/-- Outcomes of the external calls made by
`async_tcp_service::initialize_`.  `*_fails` is whether the call
returned nonzero; `*_errno` is the value of `errno` then (the code
builds the returned `std::error_code` from `errno`).
`handler_init` is `none` when `TCPStreamHandler` does not provide
`initialize` (the `if constexpr` branch is compiled out), and
`some e` when it does and returns error value `e` (`0` = success). -/
structure init_env where
  setsockopt_fails : Bool
  setsockopt_errno : Nat
  handler_init : Option Nat
  bind_fails : Bool
  bind_errno : Nat
  listen_fails : Bool
  listen_errno : Nat
deriving DecidableEq

/-- The `bind`/`getsockname`/`listen` tail of
`async_tcp_service::initialize_` (`getsockname` just refreshes
`address_` and has no error path there). -/
def init_bind_listen (env : init_env) : Nat :=
  if env.bind_fails then env.bind_errno
  else if env.listen_fails then env.listen_errno
  else 0

/-- `async_tcp_service::initialize_`: `SO_REUSEADDR` via `setsockopt`,
then the handler's optional `initialize` (nonzero errors propagate),
then `bind`, `getsockname`, `listen`.  Returns the `std::error_code`
value (`0` = success). -/
def init_ (env : init_env) : Nat :=
  if env.setsockopt_fails then env.setsockopt_errno
  else
    match env.handler_init with
    | some e => if e ≠ 0 then e else init_bind_listen env
    | none => init_bind_listen env

/-- `async_tcp_service::start(async_context &ctx)`:

```
auto sock = socket_handle(AF_INET, SOCK_STREAM, IPPROTO_TCP);
if (auto error = initialize_(sock)) { ctx.scope.request_stop(); return; }
stop_ = ...;                                 // install_stop
acceptor(ctx, ctx.poller.emplace(std::move(sock)));
```

`stop_requested` is the scope's stop token state when `acceptor`
runs. -/
def tcp_start (env : init_env) (stop_requested : Bool) : List tcp_event :=
  if init_ env ≠ 0 then [.request_stop]
  else .install_stop :: .register_socket :: .call_acceptor ::
    acceptor stop_requested

/-! ## Worker thread (`async_service::start` / `stop`) -/

/-- Events of the worker's thread function, in program order. -/
inductive worker_event where
  | construct_service
  | lock_mtx
  | unlock_mtx
  | install_interrupt
  | register_wake_socket
  | prime_isr
  | notify_cvar
  | service_start
  | loop_iter
  | clear_interrupt
  | set_stopped
  | close_wake_socket
deriving DecidableEq

/-- `async_service::stop(socket_type socket)`:

```
interrupt = std::function<void()>{};
stopped = true;
if (socket != INVALID_SOCKET) io::socket::close(socket);
```

`socket_valid` is whether the passed socket differs from
`INVALID_SOCKET` (true exactly when `socketpair` succeeded). -/
def worker_stop_events (socket_valid : Bool) : List worker_event :=
  [.clear_interrupt, .set_stopped] ++
    (if socket_valid then [.close_wake_socket] else [])

/-- The part of the worker's thread function guarded by
`if (!socketpair(...))`: install the interrupt under `mtx`, register
the read end with the poller, prime the ISR, notify the parent, start
the service, and pump `poller.wait()` (`iters` completed loop
iterations).  Empty when `socketpair` failed. -/
def worker_setup_events (pair_ok : Bool) (iters : Nat) : List worker_event :=
  if pair_ok then
    [.lock_mtx, .install_interrupt, .unlock_mtx, .register_wake_socket,
     .prime_isr, .notify_cvar, .service_start] ++
      List.replicate iters .loop_iter
  else []

/-- The unconditional tail of the thread function:
`with_lock(std::unique_lock{mtx}, [&] { stop(isockets[1]); });
cvar.notify_all();`. -/
def worker_teardown_events (pair_ok : Bool) : List worker_event :=
  (.lock_mtx :: worker_stop_events pair_ok) ++ [.unlock_mtx, .notify_cvar]

/-- The worker's thread function in `async_service::start`:
construct the service; try `socketpair`; on success run the setup and
the event loop; in all cases run `stop` under `mtx` and notify. -/
def worker_trace (pair_ok : Bool) (iters : Nat) : List worker_event :=
  .construct_service :: worker_setup_events pair_ok iters ++
    worker_teardown_events pair_ok

/-- The cross-thread observable fields of the async context that the
worker events touch. -/
structure worker_state where
  interrupt_installed : Bool
  stopped : Bool
deriving DecidableEq

/-- The async context starts inert. -/
def worker_init : worker_state :=
  { interrupt_installed := false, stopped := false }

/-- Effect of one worker event on the observable fields. -/
def worker_step (s : worker_state) (e : worker_event) : worker_state :=
  match e with
  | .install_interrupt => { s with interrupt_installed := true }
  | .clear_interrupt => { s with interrupt_installed := false }
  | .set_stopped => { s with stopped := true }
  | _ => s

/-- State after running a list of worker events. -/
def worker_run (s : worker_state) (es : List worker_event) : worker_state :=
  es.foldl worker_step s

/-! ## Prefix-splitting helper -/

theorem prefix_append_split {α : Type} {p A T : List α} (h : p <+: A ++ T) :
    p <+: A ∨ ∃ r, r <+: T ∧ p = A ++ r := by
  by_cases hle : p.length ≤ A.length
  · exact Or.inl ((List.isPrefix_append_of_length hle).mp h)
  · right
    have hA : A <+: p :=
      List.prefix_of_prefix_length_le (List.prefix_append A T) h (by omega)
    obtain ⟨r, rfl⟩ := hA
    obtain ⟨s, hs⟩ := h
    refine ⟨r, ⟨s, ?_⟩, rfl⟩
    rwa [List.append_assoc, List.append_cancel_left_eq] at hs

/-! ## Properties of the dispatch loop -/

theorem shiftRight_eq_zero_iff_lt (S k : Nat) : S >>> k = 0 ↔ S < 2 ^ k := by
  rw [Nat.shiftRight_eq_div_pow]
  exact Nat.div_eq_zero_iff (Nat.pos_pow_of_pos k (by norm_num))

theorem dispatch_bit_test (S k : Nat) :
    ((S >>> k) &&& 1 ≠ 0) ↔ S.testBit k = true := by
  rw [Nat.and_one_is_mod, Nat.shiftRight_eq_div_pow, Nat.testBit_to_div_mod]
  simp only [decide_eq_true_eq]
  omega

theorem mem_dispatchFrom (S k i : Nat) :
    i ∈ dispatchFrom S k ↔ (k ≤ i ∧ S.testBit i = true) := by
  induction k using dispatchFrom.induct S with
  | case1 k h =>
    rw [dispatchFrom, dif_pos h]
    simp only [List.not_mem_nil, false_iff, not_and]
    intro hki
    have hS : S < 2 ^ k := (shiftRight_eq_zero_iff_lt S k).mp h
    have : S < 2 ^ i := lt_of_lt_of_le hS (Nat.pow_le_pow_right (by norm_num) hki)
    simp [Nat.testBit_lt_two_pow this]
  | case2 k h ih =>
    rw [dispatchFrom, dif_neg h]
    by_cases hb : (S >>> k) &&& 1 ≠ 0
    · have hbit : S.testBit k = true := (dispatch_bit_test S k).mp hb
      simp only [if_pos hb, List.mem_append, List.mem_singleton, ih]
      constructor
      · rintro (rfl | ⟨hk, hbi⟩)
        · exact ⟨le_refl i, hbit⟩
        · exact ⟨by omega, hbi⟩
      · rintro ⟨hk, hbi⟩
        rcases Nat.eq_or_lt_of_le hk with rfl | hlt
        · exact Or.inl rfl
        · exact Or.inr ⟨hlt, hbi⟩
    · have hbit : S.testBit k = false := by
        rcases Bool.eq_false_or_eq_true (S.testBit k) with ht | hf
        · exact absurd ((dispatch_bit_test S k).mpr ht) hb
        · exact hf
      simp only [if_neg hb, List.nil_append, ih]
      constructor
      · rintro ⟨hk, hbi⟩
        exact ⟨by omega, hbi⟩
      · rintro ⟨hk, hbi⟩
        refine ⟨?_, hbi⟩
        rcases Nat.eq_or_lt_of_le hk with rfl | hlt
        · rw [hbi] at hbit; exact absurd hbit (by simp)
        · omega

theorem dispatchFrom_sorted (S k : Nat) :
    (dispatchFrom S k).Pairwise (· < ·) := by
  induction k using dispatchFrom.induct S with
  | case1 k h =>
    rw [dispatchFrom, dif_pos h]
    exact List.Pairwise.nil
  | case2 k h ih =>
    rw [dispatchFrom, dif_neg h]
    rw [List.pairwise_append]
    refine ⟨?_, ih, ?_⟩
    · split <;> simp
    · intro a ha b hb
      have hbm : k + 1 ≤ b := ((mem_dispatchFrom S (k + 1) b).mp hb).1
      have hak : a = k := by
        split at ha
        · simpa using ha
        · simp at ha
      omega

theorem dispatchFrom_nodup (S k : Nat) : (dispatchFrom S k).Nodup :=
  (dispatchFrom_sorted S k).imp (fun h => Nat.ne_of_lt h)

/-! ## Properties of the ISR continuation chain -/

theorem isr_run_cons (S : Nat) (rest : List Nat) :
    isr_run (S :: rest) =
      isr_event.drain S :: (isr_handle S).dispatched.map isr_event.dispatch ++
        (if (isr_handle S).contin then isr_event.arm_recv :: isr_run rest
         else [isr_event.request_stop]) := rfl

theorem isr_contin_iff (S : Nat) :
    (isr_handle S).contin = true ↔ S.testBit terminate = false := by
  have h1 : (isr_handle S).contin = (S % 2 == 0) := by
    simp [isr_handle, terminate, Nat.and_one_is_mod]
  have h2 : S.testBit terminate = decide (S % 2 = 1) := by
    simp [terminate, Nat.testBit_to_div_mod]
  rw [h1, h2]
  simp only [beq_iff_eq, decide_eq_false_iff_not]
  omega

theorem isr_stop_shape (S : Nat) (rest : List Nat)
    (h : (isr_handle S).contin = false) :
    isr_run (S :: rest) =
      isr_event.drain S :: (isr_handle S).dispatched.map isr_event.dispatch ++
        [isr_event.request_stop] ∧
    isr_event.arm_recv ∉ isr_run (S :: rest) := by
  have he := isr_run_cons S rest
  rw [h] at he
  simp only [if_neg Bool.false_ne_true] at he
  refine ⟨he, ?_⟩
  rw [he]
  simp [List.mem_cons, List.mem_append, List.mem_map]

theorem arm_count_map_dispatch (L : List Nat) :
    (L.map isr_event.dispatch).count isr_event.arm_recv = 0 := by
  rw [List.count_eq_zero]
  simp [List.mem_map]

theorem drain_countP_map_dispatch (L : List Nat) :
    (L.map isr_event.dispatch).countP isr_is_drain = 0 := by
  rw [List.countP_eq_zero]
  intro a ha
  rw [List.mem_map] at ha
  obtain ⟨x, _, rfl⟩ := ha
  simp [isr_is_drain]

theorem isr_arm_le_drain (l : List Nat) (p : List isr_event)
    (hp : p <+: isr_run l) :
    p.count isr_event.arm_recv ≤ p.countP isr_is_drain := by
  induction l generalizing p with
  | nil =>
    have hnil : p = [] := List.prefix_nil.mp (by simpa [isr_run] using hp)
    subst hnil
    simp
  | cons S rest ih =>
    rw [isr_run_cons, List.cons_append] at hp
    cases p with
    | nil => simp
    | cons x q =>
      rw [List.cons_prefix_cons] at hp
      obtain ⟨rfl, hq⟩ := hp
      have e1 : (isr_event.drain S :: q).count isr_event.arm_recv =
          q.count isr_event.arm_recv := by
        simp [List.count_cons]
      have e2 : (isr_event.drain S :: q).countP isr_is_drain =
          q.countP isr_is_drain + 1 := by
        simp [List.countP_cons, isr_is_drain]
      rw [e1, e2]
      rcases prefix_append_split hq with hqD | ⟨r, hr, rfl⟩
      · have harm : isr_event.arm_recv ∉ q := by
          intro hmem
          have hmem2 := hqD.sublist.subset hmem
          simp [List.mem_map] at hmem2
        rw [List.count_eq_zero.mpr harm]
        omega
      · rw [List.count_append, List.countP_append,
          arm_count_map_dispatch, drain_countP_map_dispatch]
        by_cases hc : (isr_handle S).contin = true
        · rw [if_pos hc] at hr
          cases r with
          | nil => simp
          | cons y r2 =>
            rw [List.cons_prefix_cons] at hr
            obtain ⟨rfl, hr2⟩ := hr
            have ihr := ih r2 hr2
            have e3 : (isr_event.arm_recv :: r2).count isr_event.arm_recv =
                r2.count isr_event.arm_recv + 1 := by
              simp [List.count_cons]
            have e4 : (isr_event.arm_recv :: r2).countP isr_is_drain =
                r2.countP isr_is_drain := by
              simp [List.countP_cons, isr_is_drain]
            rw [e3, e4]
            omega
        · rw [if_neg hc] at hr
          have harm : isr_event.arm_recv ∉ r := by
            intro hm
            have hm2 := hr.sublist.subset hm
            simp at hm2
          rw [List.count_eq_zero.mpr harm]
          omega

/-! ## Properties of the worker trace -/

theorem worker_stopped_of_not_mem (es : List worker_event) :
    ∀ s : worker_state, worker_event.set_stopped ∉ es →
      (worker_run s es).stopped = s.stopped := by
  induction es with
  | nil =>
    intro s _
    rfl
  | cons e es ih =>
    intro s h
    rw [List.mem_cons] at h
    push_neg at h
    have hstep : (worker_step s e).stopped = s.stopped := by
      cases e
      case set_stopped => exact absurd rfl h.1
      all_goals rfl
    calc (worker_run s (e :: es)).stopped
        = (worker_run (worker_step s e) es).stopped := rfl
      _ = (worker_step s e).stopped := ih (worker_step s e) h.2
      _ = s.stopped := hstep

theorem worker_setup_no_stop (pair_ok : Bool) (iters : Nat) :
    worker_event.set_stopped ∉ worker_setup_events pair_ok iters := by
  cases pair_ok <;> simp [worker_setup_events, List.mem_replicate]

theorem worker_teardown_state (s : worker_state) (pair_ok : Bool) :
    worker_run s (worker_teardown_events pair_ok) =
      { interrupt_installed := false, stopped := true } := by
  cases pair_ok <;> rfl

theorem worker_teardown_prefix_inv (s : worker_state) (pair_ok : Bool)
    (r : List worker_event) (hr : r <+: worker_teardown_events pair_ok)
    (hs : s.stopped = false) :
    (worker_run s r).stopped = true →
      (worker_run s r).interrupt_installed = false := by
  obtain ⟨i, st⟩ := s
  simp only at hs
  subst hs
  rw [List.prefix_iff_eq_take.mp hr]
  have hlen := hr.length_le
  set n := r.length with hn
  clear_value n
  clear hr hn
  cases pair_ok <;> cases i <;>
    (simp only [worker_teardown_events, worker_stop_events,
      List.length_append, List.length_cons, List.length_nil, if_pos,
      if_neg, Bool.false_eq_true, not_false_iff] at hlen;
     interval_cases n <;> decide)

theorem worker_run_append (s : worker_state) (a b : List worker_event) :
    worker_run s (a ++ b) = worker_run (worker_run s a) b := by
  simp [worker_run, List.foldl_append]

/-! ## Claim theorems -/

/-- C1: for every `signum` with `0 ≤ signum < END` (asserted
precondition), `async_context::signal(signum)`: if the interrupt cell
holds a callable, it ORs bit `signum` into `sigmask` and then invokes
the interrupt (the OR event precedes the invocation event in the
emitted trace); if the cell is empty, the call changes nothing —
`sigmask` keeps its prior value and no callable is invoked. -/
theorem C1_signal (sigmask signum : Nat) (h : signum < END) :
    (signal sigmask true signum).2 =
      [signal_event.or_bit signum, signal_event.invoke_interrupt] ∧
    (∀ i : Nat, (signal sigmask true signum).1.testBit i =
      (sigmask.testBit i || decide (signum = i))) ∧
    signal sigmask false signum = (sigmask, []) := by
  refine ⟨rfl, ?_, rfl⟩
  intro i
  show (sigmask ||| 1 <<< signum).testBit i = _
  rw [Nat.testBit_or, Nat.shiftLeft_eq, one_mul, Nat.testBit_two_pow]

/-- Witness for C1 at `sigmask = 5`, `signum = 1`. -/
theorem C1_signal_witness :
    1 < END ∧
    ((signal 5 true 1).2 =
        [signal_event.or_bit 1, signal_event.invoke_interrupt] ∧
      (∀ i : Nat, (signal 5 true 1).1.testBit i =
        (Nat.testBit 5 i || decide (1 = i))) ∧
      signal 5 false 1 = (5, [])) :=
  ⟨by decide, C1_signal 5 1 (by decide)⟩

/-- C10: `interrupt_type::operator()` is not guarded: it snapshots the
stored `std::function` under the mutex and invokes the snapshot
unconditionally, so on an unassigned cell the empty-call error branch
(`bad_function_call`) is reached; the presence check exists only in
`operator bool`. -/
theorem C10_interrupt_invoke (E : Type) (f : Unit → E) :
    interrupt_invoke (interrupt_type.mk (none : Option (Unit → E))) =
      invoke_result.bad_function_call ∧
    interrupt_invoke (interrupt_type.mk (some f)) = invoke_result.ok (f ()) ∧
    interrupt_bool (interrupt_type.mk (none : Option (Unit → E))) = false ∧
    interrupt_bool (interrupt_type.mk (some f)) = true :=
  ⟨rfl, rfl, rfl, rfl⟩

/-- C8: the TCP scaffold's `signal_handler(signum)` invokes the `stop_`
closure iff `signum == terminate` and `stop_` holds a callable; for any
other `signum` (e.g. `user1`), and for `terminate` with an empty
`stop_`, it performs no action. -/
theorem C8_signal_handler (signum : Int) (b : Bool) :
    (signal_handler signum b = [tcp_event.invoke_stop] ↔
      (signum = (terminate : Nat) ∧ b = true)) ∧
    ((signum ≠ (terminate : Nat) ∨ b = false) → signal_handler signum b = []) ∧
    signal_handler (user1 : Nat) b = [] ∧
    signal_handler (terminate : Nat) false = [] := by
  refine ⟨?_, ?_, ?_, ?_⟩
  · unfold signal_handler
    split
    · rename_i hc
      simp only [true_iff]
      exact ⟨hc.1, hc.2⟩
    · rename_i hc
      constructor
      · intro he
        exact absurd he (by simp)
      · intro hcc
        exact absurd hcc hc
  · intro hcase
    unfold signal_handler
    rw [if_neg]
    rintro ⟨h1, h2⟩
    rcases hcase with hs | hb
    · exact hs h1
    · rw [h2] at hb
      exact Bool.true_eq_false.mp hb
  · unfold signal_handler
    rw [if_neg]
    rintro ⟨h1, _⟩
    simp [user1, terminate] at h1
  · rfl

/-- C6: invoking the installed `stop_` closure first calls
`scope.request_stop()`, then registers a fresh TCP socket with the same
multiplexer and spawns a `connect` to the stored service address;
both continuations of that `connect` do nothing.  `request_stop` is
issued before the self-connect is spawned. -/
theorem C6_stop_closure :
    stop_closure =
      [tcp_event.request_stop, tcp_event.register_socket,
       tcp_event.spawn_connect] ∧
    stop_closure.indexOf tcp_event.request_stop <
      stop_closure.indexOf tcp_event.register_socket ∧
    stop_closure.indexOf tcp_event.register_socket <
      stop_closure.indexOf tcp_event.spawn_connect ∧
    (∀ s : Int, connect_then s = []) ∧
    (∀ e : Int, connect_on_error e = []) :=
  ⟨rfl, by decide, by decide, fun _ => rfl, fun _ => rfl⟩

/-- C4: the acceptor returns without spawning when the stop token is
requested; otherwise it spawns exactly one `accept` sender, whose
success continuation calls `reader` once with a fresh `read_context`
and re-invokes the acceptor exactly once, and whose error continuation
does nothing. -/
theorem C4_acceptor (stop_requested : Bool) (err : Int) :
    acceptor true = [] ∧
    acceptor false = [tcp_event.spawn_accept] ∧
    (acceptor stop_requested).count tcp_event.spawn_accept ≤ 1 ∧
    (accept_then stop_requested).count (tcp_event.call_reader true) = 1 ∧
    (accept_then stop_requested).count tcp_event.call_acceptor = 1 ∧
    accept_on_error err = [] := by
  refine ⟨rfl, rfl, ?_, ?_, ?_, rfl⟩ <;>
    cases stop_requested <;> decide

/-- C5: the reader returns without spawning when the stop token is
requested; a `recvmsg` completion with `len == 0` invokes neither the
handler nor a further read; with `len > 0` it invokes the user handler
exactly once with a view of the first `len` bytes of the read buffer;
and neither the recv continuation nor `emit` spawns another read
continuation itself. -/
theorem C5_reader (rctx : read_context) (len : Nat) (err : Int)
    (hlen : 0 < len) (hbuf : len ≤ rctx.buffer.length) :
    reader true = [] ∧
    recv_then rctx 0 = [] ∧
    recv_then rctx len = [tcp_event.invoke_handler (rctx.buffer.take len)] ∧
    (rctx.buffer.take len).length = len ∧
    (∀ i : Nat, i < len → (rctx.buffer.take len)[i]? = rctx.buffer[i]?) ∧
    tcp_event.spawn_recv ∉ recv_then rctx len ∧
    tcp_event.spawn_recv ∉ emit rctx len ∧
    recv_on_error err = [] := by
  refine ⟨rfl, rfl, ?_, ?_, ?_, ?_, ?_, rfl⟩
  · unfold recv_then
    rw [if_neg (by omega)]
    rfl
  · rw [List.length_take]
    omega
  · intro i hi
    exact List.getElem?_take_of_lt hi
  · unfold recv_then
    rw [if_neg (by omega)]
    simp [emit]
  · simp [emit]

/-- Witness for C5 at a 3-byte buffer and `len = 2`. -/
theorem C5_reader_witness :
    0 < 2 ∧ 2 ≤ (read_context.mk [7, 8, 9]).buffer.length ∧
    (reader true = [] ∧
      recv_then (read_context.mk [7, 8, 9]) 0 = [] ∧
      recv_then (read_context.mk [7, 8, 9]) 2 =
        [tcp_event.invoke_handler ((read_context.mk [7, 8, 9]).buffer.take 2)] ∧
      ((read_context.mk [7, 8, 9]).buffer.take 2).length = 2 ∧
      (∀ i : Nat, i < 2 →
        ((read_context.mk [7, 8, 9]).buffer.take 2)[i]? =
          (read_context.mk [7, 8, 9]).buffer[i]?) ∧
      tcp_event.spawn_recv ∉ recv_then (read_context.mk [7, 8, 9]) 2 ∧
      tcp_event.spawn_recv ∉ emit (read_context.mk [7, 8, 9]) 2 ∧
      recv_on_error 0 = []) :=
  ⟨by decide, by decide, C5_reader (read_context.mk [7, 8, 9]) 2 0
    (by decide) (by decide)⟩

/-- C3: if `initialize_` returns a nonzero error code — whether from
`setsockopt(SO_REUSEADDR)`, the handler's optional `initialize`, `bind`
or `listen` — then `start(ctx)` requests a scope stop and returns
without installing `stop_`, without registering the listener and
without invoking the acceptor, so no accept is ever spawned; when
`initialize_` returns zero, `start` installs `stop_`, registers the
listener and invokes the acceptor on it. -/
theorem C3_tcp_start (env : init_env) (b : Bool) :
    (init_ env ≠ 0 →
      tcp_start env b = [tcp_event.request_stop] ∧
      tcp_event.install_stop ∉ tcp_start env b ∧
      tcp_event.register_socket ∉ tcp_start env b ∧
      tcp_event.call_acceptor ∉ tcp_start env b ∧
      tcp_event.spawn_accept ∉ tcp_start env b) ∧
    (init_ env = 0 →
      tcp_start env b =
        tcp_event.install_stop :: tcp_event.register_socket ::
          tcp_event.call_acceptor :: acceptor b ∧
      tcp_event.request_stop ∉ tcp_start env b) ∧
    (env.setsockopt_fails = true → init_ env = env.setsockopt_errno) ∧
    (∀ e : Nat, env.setsockopt_fails = false → env.handler_init = some e →
      e ≠ 0 → init_ env = e) ∧
    (env.setsockopt_fails = false → env.handler_init.getD 0 = 0 →
      env.bind_fails = true → init_ env = env.bind_errno) ∧
    (env.setsockopt_fails = false → env.handler_init.getD 0 = 0 →
      env.bind_fails = false → env.listen_fails = true →
      init_ env = env.listen_errno) := by
  refine ⟨?_, ?_, ?_, ?_, ?_, ?_⟩
  · intro h
    have ht : tcp_start env b = [tcp_event.request_stop] := by
      unfold tcp_start
      rw [if_pos h]
    rw [ht]
    refine ⟨rfl, ?_, ?_, ?_, ?_⟩ <;> decide
  · intro h0
    have ht : tcp_start env b =
        tcp_event.install_stop :: tcp_event.register_socket ::
          tcp_event.call_acceptor :: acceptor b := by
      unfold tcp_start
      rw [if_neg (by simp [h0])]
    rw [ht]
    refine ⟨rfl, ?_⟩
    cases b <;> simp [acceptor]
  · intro hs
    simp [init_, hs]
  · intro e hs he hne
    simp [init_, hs, he, hne]
  · intro hs hd hb
    cases hh : env.handler_init with
    | none => simp [init_, hs, hh, init_bind_listen, hb]
    | some e =>
      have he0 : e = 0 := by simpa [hh] using hd
      subst he0
      simp [init_, hs, hh, init_bind_listen, hb]
  · intro hs hd hb hl
    cases hh : env.handler_init with
    | none => simp [init_, hs, hh, init_bind_listen, hb, hl]
    | some e =>
      have he0 : e = 0 := by simpa [hh] using hd
      subst he0
      simp [init_, hs, hh, init_bind_listen, hb, hl]

/-- C2: for every 64-bit snapshot `S` taken by the ISR's exchange of
`sigmask` with zero, the dispatch step invokes `signal_handler(i)`
exactly once for each bit `i` set in `S` and for no other `i`, in
increasing bit order; it reports continue iff bit `TERMINATE` is clear
in `S`; on stop the ISR requests a scope stop and arms no further
`recvmsg`; an empty snapshot dispatches nothing and continues. -/
theorem C2_isr_dispatch (S : Nat) (rest : List Nat) (h64 : S < 2 ^ 64) :
    (∀ i : Nat, i ∈ (isr_handle S).dispatched ↔ S.testBit i = true) ∧
    (isr_handle S).dispatched.Nodup ∧
    (isr_handle S).dispatched.Pairwise (· < ·) ∧
    ((isr_handle S).contin = true ↔ S.testBit terminate = false) ∧
    (isr_handle S).new_sigmask = 0 ∧
    ((isr_handle S).contin = false →
      isr_run (S :: rest) =
        isr_event.drain S :: (isr_handle S).dispatched.map isr_event.dispatch
          ++ [isr_event.request_stop] ∧
      isr_event.arm_recv ∉ isr_run (S :: rest)) ∧
    (isr_handle 0).dispatched = [] ∧
    (isr_handle 0).contin = true := by
  refine ⟨?_, dispatchFrom_nodup S 0, dispatchFrom_sorted S 0,
    isr_contin_iff S, rfl, isr_stop_shape S rest, ?_, rfl⟩
  · intro i
    show i ∈ dispatchFrom S 0 ↔ _
    rw [mem_dispatchFrom]
    simp
  · show dispatchFrom 0 0 = []
    rw [dispatchFrom]
    simp

/-- Witness for C2 at snapshot `S = 5` (bits 0 and 2 set). -/
theorem C2_isr_dispatch_witness :
    (5 : Nat) < 2 ^ 64 ∧
    ((∀ i : Nat, i ∈ (isr_handle 5).dispatched ↔ Nat.testBit 5 i = true) ∧
      (isr_handle 5).dispatched.Nodup ∧
      (isr_handle 5).dispatched.Pairwise (· < ·) ∧
      ((isr_handle 5).contin = true ↔ Nat.testBit 5 terminate = false) ∧
      (isr_handle 5).new_sigmask = 0 ∧
      ((isr_handle 5).contin = false →
        isr_run [5] =
          isr_event.drain 5 :: (isr_handle 5).dispatched.map isr_event.dispatch
            ++ [isr_event.request_stop] ∧
        isr_event.arm_recv ∉ isr_run [5]) ∧
      (isr_handle 0).dispatched = [] ∧
      (isr_handle 0).contin = true) :=
  ⟨by norm_num, C2_isr_dispatch 5 [] (by norm_num)⟩

/-- C9: the ISR performs its drain-and-dispatch check on entry, before
arming any `recvmsg` on the wake socket: the trace of an entry starts
with the drain and the dispatches; if `TERMINATE` is already pending at
that entry, no `recvmsg` is ever armed and a scope stop is requested;
and in every trace prefix the number of armed `recvmsg`s never exceeds
the number of completed drain-and-dispatch steps. -/
theorem C9_isr_entry (S : Nat) (rest : List Nat) :
    isr_run (S :: rest) =
      isr_event.drain S :: (isr_handle S).dispatched.map isr_event.dispatch ++
        (if (isr_handle S).contin then isr_event.arm_recv :: isr_run rest
         else [isr_event.request_stop]) ∧
    (∀ e ∈ (isr_run (S :: rest)).take
        (1 + (isr_handle S).dispatched.length), e ≠ isr_event.arm_recv) ∧
    (S.testBit terminate = true →
      isr_event.arm_recv ∉ isr_run (S :: rest) ∧
      isr_event.request_stop ∈ isr_run (S :: rest)) ∧
    (∀ p : List isr_event, p <+: isr_run (S :: rest) →
      p.count isr_event.arm_recv ≤ p.countP isr_is_drain) := by
  refine ⟨isr_run_cons S rest, ?_, ?_, fun p hp => isr_arm_le_drain _ p hp⟩
  · intro e he
    rw [isr_run_cons] at he
    have hlen : 1 + (isr_handle S).dispatched.length =
        (isr_event.drain S ::
          (isr_handle S).dispatched.map isr_event.dispatch).length := by
      simp [Nat.add_comm]
    rw [hlen, List.take_left] at he
    rcases List.mem_cons.mp he with rfl | hmem
    · simp
    · rw [List.mem_map] at hmem
      obtain ⟨x, _, rfl⟩ := hmem
      simp
  · intro hterm
    have hc : (isr_handle S).contin = false := by
      rcases Bool.eq_false_or_eq_true (isr_handle S).contin with ht | hf
      · rw [(isr_contin_iff S).mp ht] at hterm
        exact absurd hterm (by simp)
      · exact hf
    obtain ⟨hshape, hnoarm⟩ := isr_stop_shape S rest hc
    refine ⟨hnoarm, ?_⟩
    rw [hshape]
    simp

/-- C7: on every execution of the worker's thread function — both when
`socketpair` fails (interrupt never installed, ISR never primed,
service never started, loop never entered) and when the event loop
ends — the teardown runs under the external mutex and clears the
interrupt cell before setting `stopped`, then notifies the condition
variable; whenever `stopped` is observed true at any point of the
trace, the interrupt cell is empty. -/
theorem C7_worker_teardown (pair_ok : Bool) (iters : Nat) :
    ((worker_event.lock_mtx :: worker_stop_events pair_ok ++
        [worker_event.unlock_mtx]) <:+: worker_trace pair_ok iters) ∧
    ([worker_event.clear_interrupt, worker_event.set_stopped] <+:
      worker_stop_events pair_ok) ∧
    (pair_ok = false →
      worker_event.install_interrupt ∉ worker_trace pair_ok iters ∧
      worker_event.prime_isr ∉ worker_trace pair_ok iters ∧
      worker_event.service_start ∉ worker_trace pair_ok iters ∧
      worker_event.loop_iter ∉ worker_trace pair_ok iters) ∧
    ([worker_event.unlock_mtx, worker_event.notify_cvar] <:+
      worker_trace pair_ok iters) ∧
    (worker_run worker_init (worker_trace pair_ok iters)).stopped = true ∧
    (worker_run worker_init (worker_trace pair_ok iters)).interrupt_installed
      = false ∧
    (∀ p : List worker_event, p <+: worker_trace pair_ok iters →
      (worker_run worker_init p).stopped = true →
      (worker_run worker_init p).interrupt_installed = false) := by
  have hsplit : worker_trace pair_ok iters =
      (worker_event.construct_service ::
        worker_setup_events pair_ok iters) ++
        worker_teardown_events pair_ok := rfl
  have hfinal : worker_run worker_init (worker_trace pair_ok iters) =
      { interrupt_installed := false, stopped := true } := by
    rw [hsplit, worker_run_append]
    exact worker_teardown_state _ pair_ok
  refine ⟨?_, ?_, ?_, ?_, by rw [hfinal], by rw [hfinal], ?_⟩
  · refine ⟨worker_event.construct_service ::
      worker_setup_events pair_ok iters, [worker_event.notify_cvar], ?_⟩
    rw [hsplit]
    simp [worker_teardown_events, List.append_assoc]
  · exact ⟨(if pair_ok then [worker_event.close_wake_socket] else []), rfl⟩
  · intro h
    subst h
    refine ⟨?_, ?_, ?_, ?_⟩ <;>
      simp [worker_trace, worker_setup_events, worker_teardown_events,
        worker_stop_events]
  · refine ⟨worker_event.construct_service ::
      worker_setup_events pair_ok iters ++
        (worker_event.lock_mtx :: worker_stop_events pair_ok), ?_⟩
    rw [hsplit]
    simp [worker_teardown_events, List.append_assoc]
  · intro p hp hstop
    rw [hsplit] at hp
    cases p with
    | nil =>
      simp [worker_run, worker_init] at hstop
    | cons x q =>
      rw [List.cons_append, List.cons_prefix_cons] at hp
      obtain ⟨rfl, hq⟩ := hp
      rcases prefix_append_split hq with hqM | ⟨r, hr, rfl⟩
      · have hns : worker_event.set_stopped ∉
            worker_event.construct_service :: q := by
          rw [List.mem_cons]
          push_neg
          refine ⟨by simp, ?_⟩
          intro hm
          exact worker_setup_no_stop pair_ok iters (hqM.sublist.subset hm)
        have hst := worker_stopped_of_not_mem _ worker_init hns
        rw [hstop] at hst
        simp [worker_init] at hst
      · have hrun : worker_run worker_init
            (worker_event.construct_service ::
              (worker_setup_events pair_ok iters ++ r)) =
            worker_run (worker_run worker_init
              (worker_event.construct_service ::
                worker_setup_events pair_ok iters)) r :=
          worker_run_append worker_init
            (worker_event.construct_service ::
              worker_setup_events pair_ok iters) r
        have hs1stop : (worker_run worker_init
            (worker_event.construct_service ::
              worker_setup_events pair_ok iters)).stopped = false := by
          have hns : worker_event.set_stopped ∉
              worker_event.construct_service ::
                worker_setup_events pair_ok iters := by
            rw [List.mem_cons]
            push_neg
            exact ⟨by simp, worker_setup_no_stop pair_ok iters⟩
          rw [worker_stopped_of_not_mem _ worker_init hns]
          rfl
        rw [hrun] at hstop ⊢
        exact worker_teardown_prefix_inv _ pair_ok r hr hs1stop hstop

end Cloudbus
